import Mathlib

/-!
# Verification of the Arc history search core

Shallow embedding of the repository's query logic (`src/data.py`) and its HTTP
boundary (`src/app.py`), with theorems settling the specification claims.

Modelling conventions:
* Python strings are `List Char`.
* A Python `datetime` is a record of calendar fields (`PyDateTime`); its
  `timestamp()` is exact integer arithmetic in the proleptic Gregorian
  calendar with the process-local timezone taken to be UTC (the code uses the
  same naive local convention in both conversion directions, so the choice of
  a fixed offset cancels everywhere it matters).
* The floating-point arithmetic in `chrome_time_to_datetime` /
  `datetime_to_chrome_time` is modelled exactly: for whole-second datetimes in
  the representable year range 1..9999 every intermediate Python float value
  (`|unix| ≤ 2.6e11 < 2^53`, products are integer multiples of 64 below 2^59)
  is exactly representable, so the integer/rational model below agrees with
  the source.
* SQLite rows are records; queries over a profile database become list
  operations (filter / sort / LIMIT-OFFSET) on the rows of that database.
-/

namespace ArcHistory

abbrev Str := List Char

/-- `CHROME_EPOCH_OFFSET` from data.py: seconds between 1601-01-01 and the
Unix epoch. -/
def CHROME_EPOCH_OFFSET : Int := 11644473600

/-- A Python naive `datetime` value, at whole-second granularity (the code
only ever builds whole-second datetimes; sub-second parts are irrelevant to
every claim). -/
structure PyDateTime where
  year : Int
  month : Int
  day : Int
  hour : Int
  minute : Int
  second : Int
deriving DecidableEq, Repr

/-- Days since 1970-01-01 of a proleptic-Gregorian civil date (the calendar
used by Python's `datetime`).  Standard civil-from-days arithmetic, written
with floor division (Lean's `/` on `Int`). -/
def daysFromCivil (y m d : Int) : Int :=
  let y' := if m ≤ 2 then y - 1 else y
  let era := y' / 400
  let yoe := y' - era * 400
  let mp := (m + 9) % 12
  let doy := (153 * mp + 2) / 5 + d - 1
  let doe := yoe * 365 + yoe / 4 - yoe / 100 + doy
  era * 146097 + doe - 719468

/-- Python's `datetime.timestamp()` for a whole-second naive datetime, with
local time = UTC: seconds since the Unix epoch. -/
def PyDateTime.timestamp (dt : PyDateTime) : Int :=
  86400 * daysFromCivil dt.year dt.month dt.day
    + 3600 * dt.hour + 60 * dt.minute + dt.second

/-- `datetime_to_chrome_time` from data.py:
`int((dt.timestamp() + CHROME_EPOCH_OFFSET) * 1_000_000)`.
For whole-second datetimes the float product is exact (see header), so the
`int(...)` truncation is the identity. -/
def datetime_to_chrome_time (dt : PyDateTime) : Int :=
  (dt.timestamp + CHROME_EPOCH_OFFSET) * 1000000

/-- `chrome_time_to_datetime` from data.py, viewed at the level of the
wall-clock timestamp it produces:
`unix_timestamp = chrome_time / 1_000_000 - CHROME_EPOCH_OFFSET` (true
division, so the result keeps its fractional microseconds — hence `ℚ`).
`datetime.fromtimestamp` then renders this timestamp as a datetime. -/
def chrome_time_to_datetime (chrome_time : Int) : ℚ :=
  (chrome_time : ℚ) / 1000000 - (CHROME_EPOCH_OFFSET : ℚ)

/-- Smallest timestamp `datetime.fromtimestamp` accepts
(0001-01-01T00:00:00, local = UTC). -/
def DATETIME_MIN_TS : Int := -62135596800

/-- Exclusive upper bound of the timestamps `datetime.fromtimestamp` accepts
(10000-01-01T00:00:00, local = UTC; year 9999 is the last representable). -/
def DATETIME_MAX_TS : Int := 253402300800

/-- `chrome_time_to_datetime` including the failure behaviour of
`datetime.fromtimestamp`: the Python call raises (`ValueError`/`OSError`/
`OverflowError`) exactly when the converted timestamp falls outside the
representable `datetime` range, and otherwise returns the converted
timestamp.  `none` models the raise. -/
def chrome_time_to_datetime_checked (chrome_time : Int) : Option ℚ :=
  let u := chrome_time_to_datetime chrome_time
  if (DATETIME_MIN_TS : ℚ) ≤ u ∧ u < (DATETIME_MAX_TS : ℚ) then some u else none

/-- Smallest chrome-microsecond input accepted by the conversion
(= `(DATETIME_MIN_TS + CHROME_EPOCH_OFFSET) * 1_000_000`). -/
def CHROME_TIME_MIN : Int := -50491123200000000

/-- Exclusive upper bound of accepted chrome-microsecond inputs
(= `(DATETIME_MAX_TS + CHROME_EPOCH_OFFSET) * 1_000_000`). -/
def CHROME_TIME_MAX : Int := 265046774400000000

/-- **C2.** Round-trip: converting a whole-second wall-clock timestamp to a
chrome microsecond timestamp and back yields exactly the same timestamp
(hence the same year/month/day/hour/minute/second). -/
theorem chrome_time_roundtrip (dt : PyDateTime) :
    chrome_time_to_datetime (datetime_to_chrome_time dt) = (dt.timestamp : ℚ) := by
  unfold chrome_time_to_datetime datetime_to_chrome_time
  push_cast
  field_simp

/-- **C6, counterexample.** A negative chrome timestamp (≈ 11.6 days before
1601) is converted to an ordinary wall-clock timestamp in the year 1600:
no conversion error is raised, contradicting the claim that every negative
input surfaces an explicit conversion error. -/
theorem chrome_negative_input_converts :
    (-1000000000000 : Int) < 0 ∧
      chrome_time_to_datetime_checked (-1000000000000) = some (-11645473600) := by
  constructor
  · decide
  · unfold chrome_time_to_datetime_checked chrome_time_to_datetime
    unfold DATETIME_MIN_TS DATETIME_MAX_TS CHROME_EPOCH_OFFSET
    norm_num

/-- **C6, amended.** The conversion raises exactly on inputs whose instant
falls outside the representable datetime range (years 1..9999); every other
input — negative chrome timestamps included — is converted to the exact
(unwrapped) wall-clock value `chrome_time / 10^6 − offset`. -/
theorem chrome_time_checked_eq (c : Int) :
    chrome_time_to_datetime_checked c
      = if c < CHROME_TIME_MIN ∨ CHROME_TIME_MAX ≤ c then none
        else some (chrome_time_to_datetime c) := by
  have hlo : ((DATETIME_MIN_TS : Int) : ℚ) ≤ chrome_time_to_datetime c ↔ CHROME_TIME_MIN ≤ c := by
    unfold chrome_time_to_datetime DATETIME_MIN_TS CHROME_TIME_MIN CHROME_EPOCH_OFFSET
    rw [le_sub_iff_add_le, le_div_iff₀ (by norm_num)]
    norm_num
    constructor <;> intro h <;> exact_mod_cast h
  have hhi : chrome_time_to_datetime c < ((DATETIME_MAX_TS : Int) : ℚ) ↔ c < CHROME_TIME_MAX := by
    unfold chrome_time_to_datetime DATETIME_MAX_TS CHROME_TIME_MAX CHROME_EPOCH_OFFSET
    rw [sub_lt_iff_lt_add, div_lt_iff₀ (by norm_num)]
    norm_num
    constructor <;> intro h <;> exact_mod_cast h
  unfold chrome_time_to_datetime_checked
  by_cases h : (DATETIME_MIN_TS : ℚ) ≤ chrome_time_to_datetime c ∧
      chrome_time_to_datetime c < (DATETIME_MAX_TS : ℚ)
  · rw [if_pos h, if_neg]
    push_neg
    exact ⟨hlo.1 h.1, hhi.1 h.2⟩
  · rw [if_neg h, if_pos]
    rw [not_and_or] at h
    rcases h with h | h
    · exact Or.inl (not_le.1 fun hc => h (hlo.2 hc))
    · exact Or.inr (not_lt.1 fun hc => h (hhi.2 hc))

/-! ## Query builder (`_build_where_clause`) -/

/-- SQLite `LIKE`'s case folding: ASCII A–Z to a–z (SQLite's LIKE is
case-insensitive for ASCII only). -/
def likeLower (c : Char) : Char :=
  if 'A' ≤ c ∧ c ≤ 'Z' then Char.ofNat (c.toNat + 32) else c

/-- SQLite `LIKE` pattern matching: `%` matches any sequence, an underscore
matches any single character, any other pattern character matches
case-insensitively. -/
def likeMatch : List Char → List Char → Bool
  | [], s => s.isEmpty
  | '%' :: ps, s => s.tails.any fun t => likeMatch ps t
  | '_' :: _, [] => false
  | '_' :: ps, _ :: s => likeMatch ps s
  | _ :: _, [] => false
  | p :: ps, c :: s => (likeLower p == likeLower c) && likeMatch ps s

/-- One row of `SELECT urls.url, urls.title, visits.visit_time FROM visits
JOIN urls ON visits.url = urls.id`: the join of a visit with its URL
metadata.  `title` is nullable in the schema. -/
structure UrlVisitRow where
  url : Str
  title : Option Str
  visit_time : Int
deriving DecidableEq, Repr

/-- The parameter pattern `f"%{keyword}%"`. -/
def likePattern (kw : Str) : Str := '%' :: (kw ++ ['%'])

/-- The clause `(urls.url LIKE ? OR urls.title LIKE ?)`.  When `title` is
SQL NULL the second disjunct is NULL, which `WHERE` treats as false. -/
def keywordClause (kw : Str) (r : UrlVisitRow) : Bool :=
  likeMatch (likePattern kw) r.url ||
    (match r.title with
     | some t => likeMatch (likePattern kw) t
     | none => false)

/-- `datetime(end_date.year, end_date.month, end_date.day, 23, 59, 59)`. -/
def endOfDay (d : PyDateTime) : PyDateTime := ⟨d.year, d.month, d.day, 23, 59, 59⟩

/-- Midnight of the calendar day carried by `d` (the instant the spec calls
"start of that calendar day"). -/
def dayStart (d : PyDateTime) : PyDateTime := ⟨d.year, d.month, d.day, 0, 0, 0⟩

/-- Row-level semantics of the WHERE clause built by `_build_where_clause`:
the conjunction of the keyword clause (skipped when `keyword` is falsy, i.e.
`None` or empty), `visits.visit_time >= ?` with `datetime_to_chrome_time
(start_date)`, and `visits.visit_time <= ?` with the end of `end_date`'s
day; absent filters contribute `1=1`. -/
def wherePred (keyword : Option Str) (start_date end_date : Option PyDateTime)
    (r : UrlVisitRow) : Bool :=
  (match keyword with
   | some kw => if kw.isEmpty then true else keywordClause kw r
   | none => true) &&
  (match start_date with
   | some d => decide (datetime_to_chrome_time d ≤ r.visit_time)
   | none => true) &&
  (match end_date with
   | some d => decide (r.visit_time ≤ datetime_to_chrome_time (endOfDay d))
   | none => true)

/-- Case-insensitive substring containment — the spec's description of the
keyword filter, with the same ASCII case folding SQLite's LIKE uses. -/
def containsCI (kw s : Str) : Prop := kw.map likeLower <:+: s.map likeLower

theorem likeMatch_nil (s : List Char) : likeMatch [] s = s.isEmpty := by
  rw [likeMatch]

theorem likeMatch_pct (ps s : List Char) :
    likeMatch ('%' :: ps) s = (s.tails.any fun t => likeMatch ps t) := by
  rw [likeMatch]

theorem likeMatch_char_nil {p : Char} (hp : p ≠ '%') (ps : List Char) :
    likeMatch (p :: ps) [] = false := by
  rw [likeMatch.eq_def]
  split
  · simp_all
  · simp_all
  · rfl
  · simp_all
  · rfl
  · simp_all

theorem likeMatch_char {p : Char} (hp1 : p ≠ '%') (hp2 : p ≠ '_') (ps : List Char)
    (c : Char) (s : List Char) :
    likeMatch (p :: ps) (c :: s) = ((likeLower p == likeLower c) && likeMatch ps s) := by
  rw [likeMatch.eq_def]
  split
  · simp_all
  · simp_all
  · simp_all
  · simp_all
  · simp_all
  · simp_all

theorem likeMatch_pct_nil (t : List Char) : likeMatch ['%'] t = true := by
  rw [likeMatch_pct]
  simp only [List.any_eq_true]
  exact ⟨[], by simp [List.mem_tails], by simp [likeMatch_nil]⟩

/-- A wildcard-free pattern followed by `%` matches exactly the strings whose
case folding starts with the pattern's case folding. -/
theorem likeMatch_append_pct {kw : List Char} (hw : ∀ c ∈ kw, c ≠ '%' ∧ c ≠ '_') :
    ∀ t : List Char, likeMatch (kw ++ ['%']) t = true ↔
      (kw.map likeLower) <+: (t.map likeLower) := by
  induction kw with
  | nil =>
    intro t
    simp [likeMatch_pct_nil]
  | cons c kw' ih =>
    intro t
    obtain ⟨hc, hkw'⟩ := List.forall_mem_cons.1 hw
    cases t with
    | nil =>
      rw [List.cons_append, likeMatch_char_nil hc.1]
      simp
    | cons d t' =>
      rw [List.cons_append, likeMatch_char hc.1 hc.2]
      simp only [Bool.and_eq_true, beq_iff_eq, List.map_cons, List.cons_prefix_cons]
      rw [ih hkw' t']

/-- `LIKE '%kw%'` with a wildcard-free `kw` is exactly case-insensitive
substring containment. -/
theorem likeMatch_likePattern {kw : List Char} (hw : ∀ c ∈ kw, c ≠ '%' ∧ c ≠ '_')
    (s : List Char) :
    likeMatch (likePattern kw) s = true ↔ (kw.map likeLower) <:+: (s.map likeLower) := by
  unfold likePattern
  rw [likeMatch_pct]
  simp only [List.any_eq_true, List.mem_tails]
  constructor
  · rintro ⟨t, hts, hm⟩
    rw [likeMatch_append_pct hw] at hm
    exact List.infix_iff_prefix_suffix.2 ⟨t.map likeLower, hm, List.IsSuffix.map _ hts⟩
  · intro h
    obtain ⟨u, hpre, hsuf⟩ := List.infix_iff_prefix_suffix.1 h
    obtain ⟨n, rfl⟩ : ∃ n, u = (s.map likeLower).drop n := by
      rw [List.suffix_iff_eq_drop] at hsuf
      exact ⟨_, hsuf⟩
    refine ⟨s.drop n, List.drop_suffix n s, ?_⟩
    rw [likeMatch_append_pct hw, List.map_drop]
    exact hpre

/-- **C9, counterexample.** For the keyword `"_"` (a LIKE wildcard, not
escaped by the code) a record whose URL is `"a"` satisfies the keyword
clause even though neither its URL nor its (absent) title contains `"_"` as
a substring: the claimed iff fails for keywords containing LIKE
wildcards. -/
theorem keyword_wildcard_breaks_substring_iff :
    wherePred (some ['_']) none none ⟨['a'], none, 0⟩ = true ∧
      ¬ (List.map likeLower ['_'] <:+: List.map likeLower ['a']) := by
  constructor
  · decide
  · decide

/-- **C9, amended.** For every keyword free of the LIKE wildcard characters
`%` and `_`, a record satisfies the keyword clause iff its URL text or its
title text contains the keyword as a (ASCII-)case-insensitive substring; a
match in one field alone suffices.  (Keywords containing wildcards match per
SQL LIKE semantics instead — accepted behaviour per the spec's query-builder
section.) -/
theorem keyword_clause_is_substring (kw : Str) (r : UrlVisitRow)
    (hw : ∀ c ∈ kw, c ≠ '%' ∧ c ≠ '_') :
    wherePred (some kw) none none r = true ↔
      (containsCI kw r.url ∨ ∃ t, r.title = some t ∧ containsCI kw t) := by
  unfold wherePred
  dsimp only
  by_cases hkw : kw.isEmpty
  · rw [List.isEmpty_iff] at hkw
    subst hkw
    simp [containsCI]
  · rw [if_neg hkw]
    simp only [Bool.and_true]
    unfold keywordClause containsCI
    rw [Bool.or_eq_true]
    rw [likeMatch_likePattern hw]
    constructor
    · rintro (h | h)
      · exact Or.inl h
      · rcases ht : r.title with _ | t
        · rw [ht] at h; exact absurd h (by simp)
        · rw [ht] at h
          rw [likeMatch_likePattern hw] at h
          exact Or.inr ⟨t, rfl, h⟩
    · rintro (h | ⟨t, ht, h⟩)
      · exact Or.inl h
      · rw [ht]
        rw [← likeMatch_likePattern hw] at h
        exact Or.inr h

/-- Witness for `keyword_clause_is_substring` at the keyword `"git"` and a
record whose URL is `"Gitx"`. -/
theorem keyword_clause_is_substring_witness :
    (∀ c ∈ (['g', 'i', 't'] : Str), c ≠ '%' ∧ c ≠ '_') ∧
      (wherePred (some ['g', 'i', 't']) none none ⟨['G', 'i', 't', 'x'], none, 0⟩ = true ↔
        (containsCI ['g', 'i', 't'] (⟨['G', 'i', 't', 'x'], none, 0⟩ : UrlVisitRow).url ∨
          ∃ t, (⟨['G', 'i', 't', 'x'], none, 0⟩ : UrlVisitRow).title = some t ∧
            containsCI ['g', 'i', 't'] t)) :=
  ⟨by decide, keyword_clause_is_substring ['g', 'i', 't'] ⟨['G', 'i', 't', 'x'], none, 0⟩
    (by decide)⟩

/-- **C4, counterexample.** A `start_date` carrying the time-of-day 12:00:00
does not filter from the start of its calendar day: a visit at 06:00 of the
same day (which the claim says must be accepted, being ≥ 00:00:00 of that
day) is rejected by the emitted predicate. -/
theorem start_time_of_day_not_ignored :
    wherePred none (some ⟨2024, 1, 1, 12, 0, 0⟩) none
        ⟨[], none, datetime_to_chrome_time ⟨2024, 1, 1, 6, 0, 0⟩⟩ = false ∧
      datetime_to_chrome_time (dayStart ⟨2024, 1, 1, 12, 0, 0⟩)
        ≤ datetime_to_chrome_time ⟨2024, 1, 1, 6, 0, 0⟩ := by
  constructor
  · decide
  · decide

/-- **C4, amended.** The start-date clause thresholds at the exact instant
carried by `start_date` — the start of its calendar day shifted by its
time-of-day component.  When `start_date` carries midnight (as every
start date built by the HTTP layer does), this is exactly "visit time ≥
start of that calendar day". -/
theorem start_clause_shifts_by_time_of_day (d : PyDateTime) (r : UrlVisitRow) :
    (wherePred none (some d) none r = true) ↔
      datetime_to_chrome_time (dayStart d)
          + 1000000 * (3600 * d.hour + 60 * d.minute + d.second)
        ≤ r.visit_time := by
  have h : datetime_to_chrome_time d
      = datetime_to_chrome_time (dayStart d)
        + 1000000 * (3600 * d.hour + 60 * d.minute + d.second) := by
    unfold datetime_to_chrome_time dayStart PyDateTime.timestamp
    ring
  simp [wherePred, h]

/-! ## Per-profile executor and merge coordinator (`data.py`) -/

/-- Descending order on an integer sort key (`ORDER BY visit_time DESC`,
`sort(key=..., reverse=True)`). -/
def timeDescRel {α : Type} (key : α → Int) (a b : α) : Prop := key b ≤ key a

instance {α : Type} (key : α → Int) : DecidableRel (timeDescRel key) :=
  fun a b => inferInstanceAs (Decidable (key b ≤ key a))

instance {α : Type} (key : α → Int) : IsTotal α (timeDescRel key) :=
  ⟨fun a b => le_total (key b) (key a)⟩

instance {α : Type} (key : α → Int) : IsTrans α (timeDescRel key) :=
  ⟨fun _ _ _ h1 h2 => le_trans h2 h1⟩

/-- Sort a list descending by an integer key.  Stable, like both SQLite's
sort and Python's. -/
def sortTimeDesc {α : Type} (key : α → Int) (l : List α) : List α :=
  l.insertionSort (timeDescRel key)

/-- SQL `LIMIT ? OFFSET ?` semantics (SQLite): a negative OFFSET acts as 0,
a negative LIMIT means "no limit". -/
def sqliteLimitOffset {α : Type} (l : List α) (limit offset : Int) : List α :=
  let l1 := l.drop offset.toNat
  if limit < 0 then l1 else l1.take limit.toNat

/-- Normalization of one Python slice index against a list length (negative
indices count from the end, then both are clamped to `[0, len]`). -/
def pySliceIdx (len : Nat) (i : Int) : Nat :=
  if i < 0 then ((len : Int) + i).toNat else min i.toNat len

/-- Python list slicing `l[a:b]`. -/
def pySlice {α : Type} (l : List α) (a b : Int) : List α :=
  (l.take (pySliceIdx l.length b)).drop (pySliceIdx l.length a)

/-- One result dict built by `_query_profile_rows`.  `visit_time` keeps the
chrome integer; the dict's ISO rendering of the converted datetime (the
Python merge's sort key) is monotone in this integer, so ordering by it is
ordering by the integer. -/
structure VisitRecord where
  url : Str
  title : Str
  visit_time : Int
  profile : Str
deriving DecidableEq, Repr

def NO_TITLE : Str := "(No title)".toList

/-- The dict built per row; `row["title"] or "(No title)"` replaces both a
NULL and an empty title by the placeholder. -/
def rowToRecord (profile : Str) (r : UrlVisitRow) : VisitRecord :=
  { url := r.url
    title := match r.title with
      | some t => if t.isEmpty then NO_TITLE else t
      | none => NO_TITLE
    visit_time := r.visit_time
    profile := profile }

/-- What one profile's snapshot yields to the executor: `none` models a file
that exists but cannot be read (corrupt, locked — `sqlite3` raises and the
executor's `try/except` catches), `some rows` the joined rows of a readable
database. -/
abbrev ProfileDB := Option (List UrlVisitRow)

/-- `_query_profile_count`: number of matching rows; 0 on any failure. -/
def _query_profile_count (db : ProfileDB) (pred : UrlVisitRow → Bool) : Nat :=
  match db with
  | none => 0
  | some rows => (rows.filter pred).length

/-- `_query_profile_rows`: matching rows ordered by visit time descending
with SQL pagination, rendered to result records; `[]` on any failure. -/
def _query_profile_rows (db : ProfileDB) (pred : UrlVisitRow → Bool)
    (limit offset : Int) (profile : Str) : List VisitRecord :=
  match db with
  | none => []
  | some rows =>
    (sqliteLimitOffset (sortTimeDesc (fun r => r.visit_time) (rows.filter pred))
        limit offset).map (rowToRecord profile)

/-- The snapshot directory: per profile name, `none` when
`get_history_db_path` finds no snapshot file, otherwise the profile's
database. -/
abbrev SnapshotEnv := List (Str × ProfileDB)

/-- The active-profile resolution at the top of `search_history`: the
requested profiles whose snapshot file exists, in request order. -/
def activeProfiles (env : SnapshotEnv) (profiles : List Str) : List (Str × ProfileDB) :=
  profiles.filterMap fun name =>
    match env.lookup name with
    | some db => some (name, db)
    | none => none

/-- The multi-profile branch of `search_history` (two or more active
profiles): per-profile counts summed, per-profile top `page * per_page`
fetches concatenated, re-sorted, and the caller's window
`[(page-1)*per_page : (page-1)*per_page + per_page]` sliced. -/
def multiSearch (active : List (Str × ProfileDB)) (pred : UrlVisitRow → Bool)
    (page per_page : Int) : List VisitRecord × Nat :=
  let total_count := (active.map fun p => _query_profile_count p.2 pred).sum
  let fetch_limit := page * per_page
  let all_results :=
    (active.map fun p => _query_profile_rows p.2 pred fetch_limit 0 p.1).flatten
  let merged := sortTimeDesc (fun r => r.visit_time) all_results
  (pySlice merged ((page - 1) * per_page) ((page - 1) * per_page + per_page),
    total_count)

/-- The dispatch of `search_history` over the resolved active profiles:
no active profile yields the empty page, exactly one pushes pagination into
SQL (`LIMIT per_page OFFSET (page-1)*per_page`), several go through the
over-fetch-and-merge branch. -/
def search_history_active (active : List (Str × ProfileDB)) (pred : UrlVisitRow → Bool)
    (page per_page : Int) : List VisitRecord × Nat :=
  match active with
  | [] => ([], 0)
  | [(name, db)] =>
    (_query_profile_rows db pred per_page ((page - 1) * per_page) name,
      _query_profile_count db pred)
  | active => multiSearch active pred page per_page

/-- `search_history` from data.py; returns `(results, total_count)`. -/
def search_history (env : SnapshotEnv) (profiles : List Str)
    (keyword : Option Str) (start_date end_date : Option PyDateTime)
    (page per_page : Int) : List VisitRecord × Nat :=
  search_history_active (activeProfiles env profiles)
    (wherePred keyword start_date end_date) page per_page

/-- The records one active profile contributes to the global union: its
matching rows rendered to records (nothing for an unreadable database). -/
def profileMatchingRecords (pred : UrlVisitRow → Bool) (p : Str × ProfileDB) :
    List VisitRecord :=
  match p.2 with
  | none => []
  | some rows => (rows.filter pred).map (rowToRecord p.1)

/-- The union of all matching records across the resolved profiles; the
"globally sorted union" of the spec's merge contract is `sortTimeDesc` of
this list. -/
def globalMatching (env : SnapshotEnv) (profiles : List Str)
    (keyword : Option Str) (sd ed : Option PyDateTime) : List VisitRecord :=
  ((activeProfiles env profiles).map
    (profileMatchingRecords (wherePred keyword sd ed))).flatten

/-! ## HTTP boundary (`app.py`) -/

/-- Python `int(s)` on a string: optional surrounding whitespace, optional
sign, decimal digits.  (`int` also accepts underscore digit grouping,
immaterial to every claim.)  `none` models the `ValueError` raise. -/
def pyIntCore (cs : List Char) : Option Nat :=
  if cs.isEmpty then none
  else if cs.all Char.isDigit then
    some (cs.foldl (fun acc c => acc * 10 + (c.toNat - 48)) 0)
  else none

def stripSpaces (s : Str) : Str :=
  ((s.dropWhile (· = ' ')).reverse.dropWhile (· = ' ')).reverse

def pyInt (s : Str) : Option Int :=
  match stripSpaces s with
  | '+' :: rest => (pyIntCore rest).map fun n => (n : Int)
  | '-' :: rest => (pyIntCore rest).map fun n => -(n : Int)
  | t => (pyIntCore t).map fun n => (n : Int)

/-- Python `str.strip()`. -/
def pyStrip (s : Str) : Str := stripSpaces s

def isLeapYear (y : Int) : Bool := (y % 4 == 0 && y % 100 != 0) || y % 400 == 0

def daysInMonth (y m : Int) : Int :=
  if m = 2 then (if isLeapYear y then 29 else 28)
  else if m = 4 ∨ m = 6 ∨ m = 9 ∨ m = 11 then 30
  else 31

def digitVal (c : Char) : Int := (c.toNat : Int) - 48

/-- `date.fromisoformat` on its canonical `YYYY-MM-DD` form, with calendar
validation.  (Python ≥ 3.11 accepts further ISO-8601 forms; immaterial —
the claims need only that well-formed dates parse and garbage raises.)
`none` models the `ValueError` raise. -/
def fromisoformat (s : Str) : Option (Int × Int × Int) :=
  match s with
  | [y1, y2, y3, y4, '-', m1, m2, '-', d1, d2] =>
    if ([y1, y2, y3, y4, m1, m2, d1, d2].all Char.isDigit) then
      let y := 1000 * digitVal y1 + 100 * digitVal y2 + 10 * digitVal y3 + digitVal y4
      let m := 10 * digitVal m1 + digitVal m2
      let d := 10 * digitVal d1 + digitVal d2
      if 1 ≤ y ∧ 1 ≤ m ∧ m ≤ 12 ∧ 1 ≤ d ∧ d ≤ daysInMonth y m then
        some (y, m, d)
      else none
    else none
  | _ => none

/-- The JSON body of a `/search` response. -/
structure SearchResponse where
  results : List VisitRecord
  total_count : Nat
  page : Int
  per_page : Int
  total_pages : Nat
deriving DecidableEq, Repr

def PER_PAGE : Int := 50

/-- The part of app.py's `search` view that runs after `int(page)`
succeeded: date parsing with `try/except` recovery, profile selection, the
data-layer call, and response assembly (`total_pages = (total_count +
PER_PAGE - 1) // PER_PAGE`). -/
def app_search_ok (env : SnapshotEnv) (qArg startArg endArg profileArg : Str)
    (page : Int) : SearchResponse :=
  let q := pyStrip qArg
  let keyword : Option Str := if q.isEmpty then none else some q
  let start_date_str := pyStrip startArg
  let end_date_str := pyStrip endArg
  let start_date : Option PyDateTime :=
    if start_date_str.isEmpty then none
    else match fromisoformat start_date_str with
      | some (y, m, d) => some ⟨y, m, d, 0, 0, 0⟩
      | none => none
  let end_date : Option PyDateTime :=
    if end_date_str.isEmpty then none
    else match fromisoformat end_date_str with
      | some (y, m, d) => some ⟨y, m, d, 0, 0, 0⟩
      | none => none
  let profiles : List Str :=
    if profileArg = "default".toList then ["default".toList]
    else if profileArg = "profile7".toList then ["profile7".toList]
    else ["default".toList, "profile7".toList]
  let r := search_history env profiles keyword start_date end_date page PER_PAGE
  { results := r.1
    total_count := r.2
    page := page
    per_page := PER_PAGE
    total_pages := (r.2 + 50 - 1) / 50 }

def INT_VALUE_ERROR : Str := "ValueError: invalid literal for int() with base 10".toList

/-- app.py's `/search` view on raw query parameters (absent parameters
arrive as their defaults `""` / `"both"` / `"1"`).  `int(request.args.get
("page", 1))` runs with no `try/except`, so an unparsable page string
raises; `Except.error` models the uncaught exception (Flask answers
HTTP 500). -/
def app_search (env : SnapshotEnv) (qArg startArg endArg profileArg pageArg : Str) :
    Except Str SearchResponse :=
  match pyInt pageArg with
  | none => Except.error INT_VALUE_ERROR
  | some page => Except.ok (app_search_ok env qArg startArg endArg profileArg page)


section SortLemmas

variable {α : Type} (key : α → Int)

theorem sortTimeDesc_perm (l : List α) : List.Perm (sortTimeDesc key l) l :=
  List.perm_insertionSort _ l

theorem sortTimeDesc_sorted (l : List α) :
    List.Sorted (timeDescRel key) (sortTimeDesc key l) :=
  List.sorted_insertionSort _ l

theorem sortTimeDesc_of_sorted {l : List α}
    (h : List.Sorted (timeDescRel key) l) : sortTimeDesc key l = l :=
  h.insertionSort_eq

theorem sortTimeDesc_mem {l : List α} {a : α} : a ∈ sortTimeDesc key l ↔ a ∈ l :=
  (sortTimeDesc_perm key l).mem_iff

theorem sortTimeDesc_map {β : Type} (key2 : β → Int) (f : α → β)
    (hk : ∀ a, key2 (f a) = key a) (l : List α) :
    (sortTimeDesc key l).map f = sortTimeDesc key2 (l.map f) :=
  List.map_insertionSort _ _ f l (by
    intro a _ b _
    unfold timeDescRel
    rw [hk, hk])

theorem subperm_append {l₁ l₂ r₁ r₂ : List α} (h1 : List.Subperm l₁ l₂)
    (h2 : List.Subperm r₁ r₂) : List.Subperm (l₁ ++ r₁) (l₂ ++ r₂) := by
  obtain ⟨u, hu1, hu2⟩ := h1
  obtain ⟨v, hv1, hv2⟩ := h2
  exact ⟨u ++ v, hu1.append hv1, hu2.append hv2⟩

theorem subperm_map {β : Type} (f : α → β) {l₁ l₂ : List α}
    (h : List.Subperm l₁ l₂) : List.Subperm (l₁.map f) (l₂.map f) := by
  obtain ⟨u, hu1, hu2⟩ := h
  exact ⟨u.map f, hu1.map f, hu2.map f⟩

theorem subperm_nodup {l₁ l₂ : List α} (h : List.Subperm l₁ l₂) (hnd : l₂.Nodup) :
    l₁.Nodup := by
  obtain ⟨u, hu1, hu2⟩ := h
  exact hu1.nodup_iff.1 (hu2.nodup hnd)

end SortLemmas


section RankLemmas

variable {α : Type} (key : α → Int)

/-- Number of elements of `l` with a strictly larger key than `a`. -/
def rankAbove (a : α) (l : List α) : Nat :=
  l.countP fun x => decide (key a < key x)

theorem rankAbove_perm {l₁ l₂ : List α} (h : List.Perm l₁ l₂) (a : α) :
    rankAbove key a l₁ = rankAbove key a l₂ :=
  h.countP_eq _

theorem rankAbove_le_of_sublist {l₁ l₂ : List α} (h : List.Sublist l₁ l₂) (a : α) :
    rankAbove key a l₁ ≤ rankAbove key a l₂ :=
  h.countP_le _

theorem rankAbove_lt_of_mem_take {X : List α} {a : α} {k : Nat}
    (hs : List.Sorted (timeDescRel key) X) (ha : a ∈ X.take k) :
    rankAbove key a X < k := by
  induction X generalizing k with
  | nil => simp at ha
  | cons x X ih =>
    cases k with
    | zero => simp at ha
    | succ k =>
      rw [List.take_succ_cons, List.mem_cons] at ha
      rw [rankAbove, List.countP_cons]
      rcases ha with rfl | ha
      · have h0 : List.countP (fun y => decide (key a < key y)) X = 0 := by
          rw [List.countP_eq_zero]
          intro y hy
          simpa using not_lt.2 (List.rel_of_sorted_cons hs y hy)
        simp [h0]
      · have hih := ih hs.of_cons ha
        rw [rankAbove] at hih
        split <;> omega

theorem mem_take_of_rankAbove_lt {X : List α} {a : α} {k : Nat}
    (hs : List.Sorted (timeDescRel key) X) (hnd : (X.map key).Nodup)
    (ha : a ∈ X) (hr : rankAbove key a X < k) : a ∈ X.take k := by
  induction X generalizing k with
  | nil => simp at ha
  | cons x X ih =>
    cases k with
    | zero => exact absurd hr (Nat.not_lt_zero _)
    | succ k =>
      rw [List.take_succ_cons, List.mem_cons]
      rcases List.mem_cons.1 ha with rfl | ha'
      · exact Or.inl rfl
      · refine Or.inr (ih hs.of_cons ?_ ha' ?_)
        · rw [List.map_cons] at hnd
          exact hnd.of_cons
        · rw [rankAbove, List.countP_cons] at hr
          by_cases hx : key a < key x
          · rw [rankAbove]
            simp [decide_eq_true hx] at hr
            omega
          · exfalso
            have h1 : key a ≤ key x := List.rel_of_sorted_cons hs a ha'
            have h2 : key a = key x := le_antisymm h1 (not_lt.1 hx)
            rw [List.map_cons] at hnd
            exact (List.nodup_cons.1 hnd).1 (h2 ▸ List.mem_map_of_mem key ha')

end RankLemmas


section TakeLemmas

variable {α : Type} (key : α → Int)

/-- Two descending-sorted lists with distinct keys, one a sub-multiset of
the other and dominating every element outside itself, agree on the prefix
of the smaller one's length. -/
theorem take_eq_of_sorted_subperm {A Y : List α}
    (hsA : List.Sorted (timeDescRel key) A) (hsY : List.Sorted (timeDescRel key) Y)
    (hsub : List.Subperm A Y) (hndY : (Y.map key).Nodup)
    (hout : ∀ y ∈ Y, y ∉ A → ∀ a ∈ A, key y < key a) :
    Y.take A.length = A := by
  induction A generalizing Y with
  | nil => simp
  | cons a A ih =>
    have haY : a ∈ Y := hsub.subset (List.mem_cons_self a A)
    cases Y with
    | nil => simp at haY
    | cons y Y' =>
      have hya : y = a := by
        by_cases hay : y = a
        · exact hay
        · have haY' : a ∈ Y' := by
            rcases List.mem_cons.1 haY with h | h
            · exact absurd h.symm hay
            · exact h
          have hay_le : key a ≤ key y := List.rel_of_sorted_cons hsY a haY'
          by_cases hyA : y ∈ a :: A
          · rcases List.mem_cons.1 hyA with h' | h'
            · exact absurd h' hay
            · exfalso
              have h1 : key y ≤ key a := List.rel_of_sorted_cons hsA y h'
              have h2 : key y = key a := le_antisymm h1 hay_le
              rw [List.map_cons] at hndY
              exact (List.nodup_cons.1 hndY).1 (h2.symm ▸ List.mem_map_of_mem key haY')
          · exact absurd (hout y (List.mem_cons_self y Y') hyA a (List.mem_cons_self a A))
              (not_lt.2 hay_le)
      subst hya
      rw [List.length_cons, List.take_succ_cons]
      congr 1
      refine ih hsA.of_cons hsY.of_cons ((List.subperm_cons y).1 hsub) ?_ ?_
      · rw [List.map_cons] at hndY
        exact hndY.of_cons
      · intro z hz hzA b hb
        by_cases hzyA : z ∈ y :: A
        · rcases List.mem_cons.1 hzyA with h' | h'
          · exfalso
            rw [List.map_cons] at hndY
            exact (List.nodup_cons.1 hndY).1 (h' ▸ List.mem_map_of_mem key hz)
          · exact absurd h' hzA
        · exact hout z (List.mem_cons_of_mem y hz) hzyA b (List.mem_cons_of_mem y hb)

end TakeLemmas


section MergeLemmas

variable {α : Type} (key : α → Int)

theorem flatten_map_subperm (f : List α → List α) (h : ∀ l, List.Subperm (f l) l)
    (ls : List (List α)) : List.Subperm ((ls.map f).flatten) ls.flatten := by
  induction ls with
  | nil => exact List.Subperm.refl _
  | cons l ls ih =>
    rw [List.map_cons, List.flatten_cons, List.flatten_cons]
    exact subperm_append (h l) ih

theorem take_fetch_subperm (k : Nat) (l : List α) :
    List.Subperm ((sortTimeDesc key l).take k) l :=
  ((List.take_sublist k _).subperm).trans (sortTimeDesc_perm key l).subperm

/-- The heart of the merge-correctness argument: fetching each source's top
`k` (by descending key) and sorting the union of the fetches yields the same
top `k` as sorting the full union — provided keys are distinct. -/
theorem take_sort_flatten_fetch (k : Nat) (ls : List (List α))
    (hnd : (ls.flatten.map key).Nodup) :
    (sortTimeDesc key ((ls.map fun l => (sortTimeDesc key l).take k).flatten)).take k
      = (sortTimeDesc key ls.flatten).take k := by
  have hTS : List.Subperm ((ls.map fun l => (sortTimeDesc key l).take k).flatten) ls.flatten :=
    flatten_map_subperm _ (take_fetch_subperm key k) ls
  have hAT : ∀ a ∈ (sortTimeDesc key ls.flatten).take k,
      a ∈ (ls.map fun l => (sortTimeDesc key l).take k).flatten := by
    intro a haA
    have haS : a ∈ ls.flatten := (sortTimeDesc_mem key).1 (List.take_subset _ _ haA)
    obtain ⟨l, hl, hal⟩ := List.mem_flatten.1 haS
    have hrS : rankAbove key a ls.flatten < k := by
      have h1 := rankAbove_lt_of_mem_take key (sortTimeDesc_sorted key ls.flatten) haA
      rwa [rankAbove_perm key (sortTimeDesc_perm key ls.flatten)] at h1
    have hrl : rankAbove key a (sortTimeDesc key l) < k := by
      refine lt_of_le_of_lt ?_ hrS
      rw [rankAbove_perm key (sortTimeDesc_perm key l)]
      exact rankAbove_le_of_sublist key (List.sublist_flatten_of_mem hl) a
    have hndl : ((sortTimeDesc key l).map key).Nodup := by
      have h1 : List.Sublist (l.map key) (ls.flatten.map key) :=
        (List.sublist_flatten_of_mem hl).map key
      exact (List.Perm.nodup_iff ((sortTimeDesc_perm key l).map key)).2 (h1.nodup hnd)
    have hmem : a ∈ (sortTimeDesc key l).take k :=
      mem_take_of_rankAbove_lt key (sortTimeDesc_sorted key l) hndl
        ((sortTimeDesc_mem key).2 hal) hrl
    exact List.mem_flatten.2 ⟨(sortTimeDesc key l).take k, List.mem_map_of_mem _ hl, hmem⟩
  have hAnd : ((sortTimeDesc key ls.flatten).take k).Nodup :=
    (List.take_sublist k _).nodup
      ((sortTimeDesc_perm key ls.flatten).nodup_iff.2 (List.Nodup.of_map key hnd))
  have hsubAY : List.Subperm ((sortTimeDesc key ls.flatten).take k)
      (sortTimeDesc key ((ls.map fun l => (sortTimeDesc key l).take k).flatten)) :=
    hAnd.subperm fun a ha => (sortTimeDesc_mem key).2 (hAT a ha)
  have hndT : ((sortTimeDesc key ((ls.map fun l => (sortTimeDesc key l).take k).flatten)).map
      key).Nodup := by
    have h1 := subperm_map key hTS
    exact (List.Perm.nodup_iff ((sortTimeDesc_perm key _).map key)).2 (subperm_nodup h1 hnd)
  have hout : ∀ y ∈ sortTimeDesc key ((ls.map fun l => (sortTimeDesc key l).take k).flatten),
      y ∉ (sortTimeDesc key ls.flatten).take k →
      ∀ a ∈ (sortTimeDesc key ls.flatten).take k, key y < key a := by
    intro y hy hyA a haA
    have hyS : y ∈ sortTimeDesc key ls.flatten :=
      (sortTimeDesc_mem key).2 (hTS.subset ((sortTimeDesc_mem key).1 hy))
    have hsplit : y ∈ (sortTimeDesc key ls.flatten).take k
        ++ (sortTimeDesc key ls.flatten).drop k := by
      rw [List.take_append_drop]
      exact hyS
    have hydrop : y ∈ (sortTimeDesc key ls.flatten).drop k := by
      rcases List.mem_append.1 hsplit with h | h
      · exact absurd h hyA
      · exact h
    have hcross : key y ≤ key a := by
      have hsorted := sortTimeDesc_sorted key ls.flatten
      rw [← List.take_append_drop k (sortTimeDesc key ls.flatten)] at hsorted
      exact (List.pairwise_append.1 hsorted).2.2 a haA y hydrop
    rcases lt_or_eq_of_le hcross with h | h
    · exact h
    · exfalso
      have hndS' : ((sortTimeDesc key ls.flatten).map key).Nodup :=
        (List.Perm.nodup_iff ((sortTimeDesc_perm key ls.flatten).map key)).2 hnd
      have haS' : a ∈ sortTimeDesc key ls.flatten := List.take_subset _ _ haA
      exact hyA ((List.inj_on_of_nodup_map hndS' hyS haS' h) ▸ haA)
  have hC := take_eq_of_sorted_subperm key
    (List.Pairwise.sublist (List.take_sublist k _) (sortTimeDesc_sorted key ls.flatten))
    (sortTimeDesc_sorted key _) hsubAY hndT hout
  by_cases hk : k ≤ (sortTimeDesc key ls.flatten).length
  · have hAlen : ((sortTimeDesc key ls.flatten).take k).length = k := by
      rw [List.length_take]
      omega
    rw [hAlen] at hC
    exact hC
  · push_neg at hk
    have hAfull : (sortTimeDesc key ls.flatten).take k = sortTimeDesc key ls.flatten :=
      List.take_of_length_le (le_of_lt hk)
    have hTlen : (sortTimeDesc key ((ls.map fun l => (sortTimeDesc key l).take k).flatten)).length
        ≤ ((sortTimeDesc key ls.flatten).take k).length := by
      rw [hAfull]
      have h1 : ((ls.map fun l => (sortTimeDesc key l).take k).flatten).length
          ≤ ls.flatten.length := hTS.length_le
      simpa [sortTimeDesc] using h1
    rw [List.take_of_length_le hTlen] at hC
    rw [hC, List.take_take, min_self]

end MergeLemmas



section SearchLemmas

theorem query_count_eq (p : Str × ProfileDB) (pred : UrlVisitRow → Bool) :
    _query_profile_count p.2 pred = (profileMatchingRecords pred p).length := by
  rcases p with ⟨name, _ | rows⟩ <;>
    simp [_query_profile_count, profileMatchingRecords]

theorem query_rows_eq (p : Str × ProfileDB) (pred : UrlVisitRow → Bool)
    {limit : Int} (hl : 0 ≤ limit) (offset : Int) :
    _query_profile_rows p.2 pred limit offset p.1
      = ((sortTimeDesc (fun r : VisitRecord => r.visit_time)
            (profileMatchingRecords pred p)).drop offset.toNat).take limit.toNat := by
  rcases p with ⟨name, _ | rows⟩
  · simp [_query_profile_rows, profileMatchingRecords, sortTimeDesc]
  · unfold _query_profile_rows profileMatchingRecords sqliteLimitOffset
    dsimp only
    rw [if_neg (not_lt.2 hl)]
    rw [← sortTimeDesc_map (fun r : UrlVisitRow => r.visit_time)
          (fun r : VisitRecord => r.visit_time) (rowToRecord name) (fun a => rfl)]
    rw [← List.map_drop, ← List.map_take]

theorem pySlice_nonneg {α : Type} (l : List α) {a b : Int} (ha : 0 ≤ a) (hb : 0 ≤ b) :
    pySlice l a b = (l.take b.toNat).drop a.toNat := by
  unfold pySlice pySliceIdx
  rw [if_neg (not_lt.2 ha), if_neg (not_lt.2 hb)]
  rcases le_or_lt a.toNat l.length with h | h
  · rw [min_eq_left h]
    rcases le_or_lt b.toNat l.length with h2 | h2
    · rw [min_eq_left h2]
    · rw [min_eq_right (le_of_lt h2), List.take_length, List.take_of_length_le (le_of_lt h2)]
  · rw [min_eq_right (le_of_lt h)]
    have h1 : (l.take (min b.toNat l.length)).length ≤ l.length := by
      rw [List.length_take]
      omega
    have h2 : (l.take b.toNat).length ≤ a.toNat := by
      rw [List.length_take]
      omega
    rw [List.drop_eq_nil_of_le h1, List.drop_eq_nil_of_le h2]

theorem pySlice_window_length_le {α : Type} (l : List α) (s pp : Int) (hpp : 0 ≤ pp) :
    (pySlice l s (s + pp)).length ≤ pp.toNat := by
  unfold pySlice pySliceIdx
  split_ifs <;> simp only [List.length_drop, List.length_take] <;> omega

theorem slice_of_sorted_take {α : Type} (key : α → Int) {page pp : Int}
    (hpage : 1 ≤ page) (hpp : 0 ≤ pp) (X : List α) :
    pySlice (sortTimeDesc key ((sortTimeDesc key X).take (page * pp).toNat))
        ((page - 1) * pp) ((page - 1) * pp + pp)
      = ((sortTimeDesc key X).drop (((page - 1) * pp).toNat)).take pp.toNat := by
  rw [sortTimeDesc_of_sorted key
    (List.Pairwise.sublist (List.take_sublist _ _) (sortTimeDesc_sorted key X))]
  have h0 : (0 : Int) ≤ (page - 1) * pp := mul_nonneg (by omega) hpp
  have hsum : (page - 1) * pp + pp = page * pp := by ring
  rw [pySlice_nonneg _ h0 (by omega), hsum, List.take_take, min_self, List.drop_take]
  congr 1
  omega

end SearchLemmas


section SearchLemmas2

theorem search_history_active_multi (active : List (Str × ProfileDB))
    (pred : UrlVisitRow → Bool) (page pp : Int) (h : 2 ≤ active.length) :
    search_history_active active pred page pp = multiSearch active pred page pp := by
  match active with
  | [] => simp at h
  | [p] => simp at h
  | p :: q :: rest => rfl

theorem multiSearch_failed_middle (A1 A2 : List (Str × ProfileDB)) (n : Str)
    (pred : UrlVisitRow → Bool) (page pp : Int) :
    multiSearch (A1 ++ (n, none) :: A2) pred page pp
      = multiSearch (A1 ++ A2) pred page pp := by
  unfold multiSearch
  dsimp only
  rw [List.map_append, List.map_cons, List.map_append, List.map_cons,
    List.map_append, List.map_append]
  simp [_query_profile_rows, _query_profile_count]

theorem multiSearch_eq_single (p : Str × ProfileDB) (pred : UrlVisitRow → Bool)
    {page pp : Int} (hpage : 1 ≤ page) (hpp : 0 ≤ pp) (L : List (Str × ProfileDB))
    (hflat : (L.map fun q => _query_profile_rows q.2 pred (page * pp) 0 q.1).flatten
        = _query_profile_rows p.2 pred (page * pp) 0 p.1)
    (hsum : (L.map fun q => _query_profile_count q.2 pred).sum
        = _query_profile_count p.2 pred) :
    multiSearch L pred page pp
      = (_query_profile_rows p.2 pred pp ((page - 1) * pp) p.1,
          _query_profile_count p.2 pred) := by
  unfold multiSearch
  dsimp only
  rw [hflat, hsum]
  have hk : (0 : Int) ≤ page * pp := mul_nonneg (by omega) hpp
  rw [query_rows_eq p pred hk 0]
  rw [query_rows_eq p pred hpp ((page - 1) * pp)]
  congr 1
  have hz : ((0 : Int)).toNat = 0 := rfl
  rw [hz, List.drop_zero]
  exact slice_of_sorted_take _ hpage hpp _

end SearchLemmas2


section C8Lemmas

theorem search_active_insert_failed (A1 A2 : List (Str × ProfileDB)) (n : Str)
    (pred : UrlVisitRow → Bool) {page pp : Int} (hpage : 1 ≤ page) (hpp : 0 ≤ pp) :
    search_history_active (A1 ++ (n, none) :: A2) pred page pp
      = search_history_active (A1 ++ A2) pred page pp := by
  rcases h12 : A1 ++ A2 with _ | ⟨p, rest⟩
  · obtain ⟨rfl, rfl⟩ := List.append_eq_nil.1 h12
    simp [search_history_active, _query_profile_rows, _query_profile_count]
  · rcases rest with _ | ⟨q, rest'⟩
    · have hone : (A1 = [] ∧ A2 = [p]) ∨ (A1 = [p] ∧ A2 = []) := by
        rcases A1 with _ | ⟨a, A1'⟩
        · exact Or.inl ⟨rfl, by simpa using h12⟩
        · rw [List.cons_append] at h12
          injection h12 with h1 h2
          obtain ⟨rfl, rfl⟩ := List.append_eq_nil.1 h2
          subst h1
          exact Or.inr ⟨rfl, rfl⟩
      rcases hone with ⟨rfl, rfl⟩ | ⟨rfl, rfl⟩
      · rw [List.nil_append,
          show search_history_active [(n, none), p] pred page pp
            = multiSearch [(n, none), p] pred page pp from rfl,
          multiSearch_eq_single p pred hpage hpp _ (by simp [_query_profile_rows])
            (by simp [_query_profile_count])]
        rcases p with ⟨name, db⟩
        rfl
      · rw [show search_history_active ([p] ++ (n, none) :: []) pred page pp
            = multiSearch [p, (n, none)] pred page pp from rfl,
          multiSearch_eq_single p pred hpage hpp _ (by simp [_query_profile_rows])
            (by simp [_query_profile_count])]
        rcases p with ⟨name, db⟩
        rfl
    · have hlen2 : 2 ≤ (p :: q :: rest').length := by simp
      have hlen3 : 2 ≤ (A1 ++ (n, none) :: A2).length := by
        have := congrArg List.length h12
        rw [List.length_append] at this ⊢
        simp only [List.length_cons] at this ⊢
        omega
      rw [search_history_active_multi _ _ _ _ hlen3,
        search_history_active_multi _ _ _ _ hlen2,
        ← h12, multiSearch_failed_middle]

end C8Lemmas


section ClaimLemmas

theorem activeProfiles_append (env : SnapshotEnv) (l1 l2 : List Str) :
    activeProfiles env (l1 ++ l2) = activeProfiles env l1 ++ activeProfiles env l2 := by
  unfold activeProfiles
  rw [List.filterMap_append]

/-- **C8.** A profile whose snapshot is missing (no file) or unreadable
(count and fetch fail and return their identities) contributes nothing and
leaves every other profile's contribution to a merged search unchanged. -/
theorem profile_failure_is_local :
    (∀ pred, _query_profile_count none pred = 0) ∧
    (∀ pred limit offset name, _query_profile_rows none pred limit offset name = []) ∧
    (∀ (env : SnapshotEnv) (names1 names2 : List Str) (n : Str)
        (keyword : Option Str) (sd ed : Option PyDateTime) (page pp : Int),
      1 ≤ page → 0 ≤ pp →
      (env.lookup n = none ∨ env.lookup n = some none) →
      search_history env (names1 ++ n :: names2) keyword sd ed page pp
        = search_history env (names1 ++ names2) keyword sd ed page pp) := by
  refine ⟨fun _ => rfl, fun _ _ _ _ => rfl, ?_⟩
  intro env names1 names2 n kw sd ed page pp hpage hpp hfail
  unfold search_history
  have hsplit : activeProfiles env (names1 ++ n :: names2)
      = activeProfiles env names1 ++ activeProfiles env [n] ++ activeProfiles env names2 := by
    rw [show names1 ++ n :: names2 = names1 ++ [n] ++ names2 by simp,
      activeProfiles_append, activeProfiles_append]
  rcases hfail with h | h
  · have hn : activeProfiles env [n] = [] := by
      simp [activeProfiles, h]
    rw [hsplit, hn, List.append_nil, ← activeProfiles_append]
  · have hn : activeProfiles env [n] = [(n, none)] := by
      simp [activeProfiles, h]
    rw [hsplit, hn, activeProfiles_append, List.append_assoc, List.singleton_append]
    exact search_active_insert_failed _ _ _ _ hpage hpp

/-- Witness for the third component of `profile_failure_is_local`: a
two-profile environment where the second profile's snapshot is unreadable. -/
theorem profile_failure_is_local_witness :
    search_history
        [("default".toList, some [⟨"u".toList, none, 5⟩]), ("profile7".toList, none)]
        ["default".toList, "profile7".toList] none none none 1 50
      = search_history
        [("default".toList, some [⟨"u".toList, none, 5⟩]), ("profile7".toList, none)]
        ["default".toList] none none none 1 50 :=
  profile_failure_is_local.2.2
    [("default".toList, some [⟨"u".toList, none, 5⟩]), ("profile7".toList, none)]
    ["default".toList] [] "profile7".toList none none none 1 50
    (by decide) (by decide) (Or.inr (by decide))

/-- **C10.** The empty-string keyword is falsy in `_build_where_clause`, so
searching with `keyword=""` is identical to searching with `keyword=None`
for every environment and every other filter setting. -/
theorem empty_keyword_eq_no_keyword (env : SnapshotEnv) (profiles : List Str)
    (sd ed : Option PyDateTime) (page per_page : Int) :
    search_history env profiles (some []) sd ed page per_page
      = search_history env profiles none sd ed page per_page := rfl

end ClaimLemmas


section C7Lemmas

theorem query_rows_sorted (db : ProfileDB) (pred : UrlVisitRow → Bool)
    (limit offset : Int) (name : Str) :
    List.Sorted (timeDescRel (fun r : VisitRecord => r.visit_time))
      (_query_profile_rows db pred limit offset name) := by
  rcases db with _ | rows
  · simp [_query_profile_rows]
  · unfold _query_profile_rows sqliteLimitOffset
    dsimp only
    have hsorted : List.Sorted (timeDescRel (fun r : UrlVisitRow => r.visit_time))
        (sortTimeDesc (fun r : UrlVisitRow => r.visit_time) (rows.filter pred)) :=
      sortTimeDesc_sorted _ _
    have hmap : ∀ (l : List UrlVisitRow),
        List.Sorted (timeDescRel (fun r : UrlVisitRow => r.visit_time)) l →
        List.Sorted (timeDescRel (fun r : VisitRecord => r.visit_time))
          (l.map (rowToRecord name)) := by
      intro l hl
      exact List.Pairwise.map _ (fun a b hab => hab) hl
    split
    · exact hmap _ (List.Pairwise.sublist (List.drop_sublist _ _) hsorted)
    · refine hmap _ (List.Pairwise.sublist ?_ hsorted)
      exact (List.take_sublist _ _).trans (List.drop_sublist _ _)

theorem pySlice_sublist {α : Type} (l : List α) (a b : Int) :
    List.Sublist (pySlice l a b) l := by
  unfold pySlice
  exact (List.drop_sublist _ _).trans (List.take_sublist _ _)

/-- **C7.** Every returned page is non-increasing by visit time, on the
single-profile path (SQL `ORDER BY visit_time DESC`) and on the
multi-profile path (concatenation followed by the merge re-sort) alike. -/
theorem search_results_time_ordered (env : SnapshotEnv) (profiles : List Str)
    (keyword : Option Str) (sd ed : Option PyDateTime) (page per_page : Int) :
    List.Sorted (timeDescRel (fun r : VisitRecord => r.visit_time))
      (search_history env profiles keyword sd ed page per_page).1 := by
  unfold search_history search_history_active
  match activeProfiles env profiles with
  | [] => simp
  | [(name, db)] => exact query_rows_sorted db _ per_page _ name
  | p :: q :: rest =>
    show List.Sorted _ (multiSearch (p :: q :: rest) _ page per_page).1
    unfold multiSearch
    dsimp only
    exact List.Pairwise.sublist (pySlice_sublist _ _ _) (sortTimeDesc_sorted _ _)

end C7Lemmas


section C3Lemmas

theorem query_rows_length_le (db : ProfileDB) (pred : UrlVisitRow → Bool)
    {limit : Int} (hl : 0 ≤ limit) (offset : Int) (name : Str) :
    (_query_profile_rows db pred limit offset name).length ≤ limit.toNat := by
  rcases db with _ | rows
  · simp [_query_profile_rows]
  · unfold _query_profile_rows sqliteLimitOffset
    dsimp only
    rw [if_neg (not_lt.2 hl), List.length_map, List.length_take]
    omega

theorem search_results_length_le (env : SnapshotEnv) (profiles : List Str)
    (keyword : Option Str) (sd ed : Option PyDateTime) (page : Int) {pp : Int}
    (hpp : 0 ≤ pp) :
    (search_history env profiles keyword sd ed page pp).1.length ≤ pp.toNat := by
  unfold search_history search_history_active
  match activeProfiles env profiles with
  | [] => simp
  | [(name, db)] => exact query_rows_length_le db _ hpp _ name
  | p :: q :: rest =>
    show (multiSearch (p :: q :: rest) _ page pp).1.length ≤ pp.toNat
    unfold multiSearch
    dsimp only
    exact pySlice_window_length_le _ _ pp hpp

theorem total_pages_eq_ceil (n : Nat) : (n + 50 - 1) / 50 = ⌈(n : ℚ) / 50⌉₊ := by
  refine le_antisymm ?_ ?_
  · rcases Nat.eq_zero_or_pos ((n + 50 - 1) / 50) with h | h
    · omega
    · have h1 : ((n + 50 - 1) / 50) - 1 < ⌈(n : ℚ) / 50⌉₊ := by
        rw [Nat.lt_ceil, lt_div_iff₀ (by norm_num)]
        have h2 : (((n + 50 - 1) / 50 - 1) * 50 : Nat) < n := by omega
        exact_mod_cast h2
      omega
  · rw [Nat.ceil_le, div_le_iff₀ (by norm_num)]
    have h1 : n ≤ ((n + 50 - 1) / 50) * 50 := by omega
    exact_mod_cast h1

/-- **C3.** Every response satisfies `total_pages = ceil(total_count /
per_page)` and carries at most `per_page` records (`PER_PAGE = 50`),
whatever the requested page (positive or not). -/
theorem response_page_invariants (env : SnapshotEnv)
    (qArg startArg endArg profileArg : Str) (page : Int) :
    (app_search_ok env qArg startArg endArg profileArg page).total_pages
        = ⌈((app_search_ok env qArg startArg endArg profileArg page).total_count : ℚ) / 50⌉₊ ∧
      (app_search_ok env qArg startArg endArg profileArg page).results.length ≤ 50 := by
  constructor
  · show ((search_history _ _ _ _ _ page PER_PAGE).2 + 50 - 1) / 50 = _
    exact total_pages_eq_ceil _
  · show (search_history _ _ _ _ _ page PER_PAGE).1.length ≤ 50
    exact search_results_length_le _ _ _ _ _ page (by decide)

end C3Lemmas


section C5Lemmas

def exceptIsOk {ε α : Type} : Except ε α → Bool
  | Except.ok _ => true
  | Except.error _ => false

/-- **C5, counterexample.** A non-integer `page` parameter is not recovered:
`int("abc")` raises and the view has no handler for it, so the request
fails hard (HTTP 500) instead of substituting page 1. -/
theorem nonint_page_is_hard_failure :
    app_search [] [] [] [] "both".toList "abc".toList = Except.error INT_VALUE_ERROR := rfl

/-- **C5, amended.** At the boundary layer an unparsable date string is
recovered by substituting "no date filter" and never fails the request;
the page parameter has no such recovery: the request succeeds iff the page
string parses as an integer (else: uncaught `ValueError`, an HTTP 500), and
a parsed page value — in range or not — is passed through unchanged rather
than clamped to 1. -/
theorem boundary_error_recovery :
    (∀ (env : SnapshotEnv) (qArg startArg endArg profileArg pageArg : Str),
        exceptIsOk (app_search env qArg startArg endArg profileArg pageArg)
          = (pyInt pageArg).isSome) ∧
    (∀ (env : SnapshotEnv) (qArg startArg endArg profileArg : Str) (page : Int),
        fromisoformat (pyStrip startArg) = none →
        app_search_ok env qArg startArg endArg profileArg page
          = app_search_ok env qArg [] endArg profileArg page) ∧
    (∀ (env : SnapshotEnv) (qArg startArg endArg profileArg : Str) (page : Int),
        fromisoformat (pyStrip endArg) = none →
        app_search_ok env qArg startArg endArg profileArg page
          = app_search_ok env qArg startArg [] profileArg page) ∧
    (∀ (env : SnapshotEnv) (qArg startArg endArg profileArg : Str) (page : Int),
        (app_search_ok env qArg startArg endArg profileArg page).page = page) := by
  refine ⟨?_, ?_, ?_, fun _ _ _ _ _ _ => rfl⟩
  · intro env qArg startArg endArg profileArg pageArg
    unfold app_search
    cases pyInt pageArg <;> rfl
  · intro env qArg startArg endArg profileArg page h
    unfold app_search_ok
    dsimp only
    rw [show (if (pyStrip startArg).isEmpty then (none : Option PyDateTime)
        else match fromisoformat (pyStrip startArg) with
          | some (y, m, d) => some ⟨y, m, d, 0, 0, 0⟩
          | none => none) = none from by
      split
      · rfl
      · rw [h]]
    rfl
  · intro env qArg startArg endArg profileArg page h
    unfold app_search_ok
    dsimp only
    rw [show (if (pyStrip endArg).isEmpty then (none : Option PyDateTime)
        else match fromisoformat (pyStrip endArg) with
          | some (y, m, d) => some ⟨y, m, d, 0, 0, 0⟩
          | none => none) = none from by
      split
      · rfl
      · rw [h]]
    rfl

/-- Witness for `boundary_error_recovery`: unparsable start and end dates
are each recovered to the unfiltered search. -/
theorem boundary_error_recovery_witness :
    app_search_ok [] [] ['x'] [] [] 1 = app_search_ok [] [] [] [] [] 1 ∧
      app_search_ok [] [] [] ['y'] [] 1 = app_search_ok [] [] [] [] [] 1 :=
  ⟨boundary_error_recovery.2.1 [] [] ['x'] [] [] 1 (by decide),
    boundary_error_recovery.2.2.1 [] [] [] ['y'] [] 1 (by decide)⟩

end C5Lemmas


section C1Lemmas

/-- **C1.** For two or more resolved profiles (and distinct visit times),
`search` returns exactly the window `[(page-1)*per_page, page*per_page)` of
the globally sorted union of all matching records, and `total_count` equals
the size of that union — the sum of the per-profile counts. -/
theorem search_merges_globally (env : SnapshotEnv) (profiles : List Str)
    (keyword : Option Str) (sd ed : Option PyDateTime) (page pp : Int)
    (h2 : 2 ≤ (activeProfiles env profiles).length)
    (hpage : 1 ≤ page) (hpp : 0 ≤ pp)
    (hnd : ((globalMatching env profiles keyword sd ed).map
        (fun r : VisitRecord => r.visit_time)).Nodup) :
    search_history env profiles keyword sd ed page pp
      = (((sortTimeDesc (fun r : VisitRecord => r.visit_time)
              (globalMatching env profiles keyword sd ed)).drop
            (((page - 1) * pp).toNat)).take pp.toNat,
         (globalMatching env profiles keyword sd ed).length) := by
  unfold search_history
  rw [search_history_active_multi _ _ _ _ h2]
  unfold multiSearch globalMatching
  unfold globalMatching at hnd
  dsimp only
  have hk : (0 : Int) ≤ page * pp := mul_nonneg (by omega) hpp
  have hfetch : ((activeProfiles env profiles).map fun p =>
      _query_profile_rows p.2 (wherePred keyword sd ed) (page * pp) 0 p.1)
      = ((activeProfiles env profiles).map
          (profileMatchingRecords (wherePred keyword sd ed))).map
          fun l => (sortTimeDesc (fun r : VisitRecord => r.visit_time) l).take
            (page * pp).toNat := by
    rw [List.map_map]
    refine List.map_congr_left ?_
    intro p _
    rw [query_rows_eq p _ hk 0]
    simp
  rw [hfetch]
  congr 1
  · have hsum : ((page - 1) * pp) + pp = page * pp := by ring
    have h0 : (0 : Int) ≤ (page - 1) * pp := mul_nonneg (by omega) hpp
    rw [pySlice_nonneg _ h0 (by omega), hsum]
    rw [take_sort_flatten_fetch (fun r : VisitRecord => r.visit_time)
      (page * pp).toNat _ hnd]
    rw [List.drop_take]
    congr 1
    omega
  · rw [List.length_flatten, List.map_map]
    exact congrArg List.sum (List.map_congr_left fun p _ => query_count_eq p _)
end C1Lemmas


/-- The spec's merge scenario: profile A visited on Jan 1 and Feb 1 2024,
profile B on Jan 15 and Feb 15 2024. -/
def demoRowA1 : UrlVisitRow :=
  ⟨"https://a1".toList, some "A1".toList, datetime_to_chrome_time ⟨2024, 1, 1, 10, 0, 0⟩⟩

def demoRowA2 : UrlVisitRow :=
  ⟨"https://a2".toList, some "A2".toList, datetime_to_chrome_time ⟨2024, 2, 1, 14, 0, 0⟩⟩

def demoRowB1 : UrlVisitRow :=
  ⟨"https://b1".toList, some "B1".toList, datetime_to_chrome_time ⟨2024, 1, 15, 12, 0, 0⟩⟩

def demoRowB2 : UrlVisitRow :=
  ⟨"https://b2".toList, some "B2".toList, datetime_to_chrome_time ⟨2024, 2, 15, 16, 0, 0⟩⟩

def demoEnv : SnapshotEnv :=
  [("default".toList, some [demoRowA1, demoRowA2]),
    ("profile7".toList, some [demoRowB1, demoRowB2])]

def demoNames : List Str := ["default".toList, "profile7".toList]

/-- Witness for `search_merges_globally` on the spec's two-profile
scenario with `page = 1`, `per_page = 2`. -/
theorem search_merges_globally_witness :
    2 ≤ (activeProfiles demoEnv demoNames).length ∧
      ((globalMatching demoEnv demoNames none none none).map
          (fun r : VisitRecord => r.visit_time)).Nodup ∧
      search_history demoEnv demoNames none none none 1 2
        = (((sortTimeDesc (fun r : VisitRecord => r.visit_time)
                (globalMatching demoEnv demoNames none none none)).drop
              (((1 - 1) * 2 : Int).toNat)).take ((2 : Int)).toNat,
            (globalMatching demoEnv demoNames none none none).length) :=
  ⟨by decide, by decide,
    search_merges_globally demoEnv demoNames none none none 1 2 (by decide) (by decide)
      (by decide) (by decide)⟩


end ArcHistory
